import Mathlib

/-!
Verification development for the `claude-code.py` Open WebUI pipe
(repository 0235-jp/claude-code-proxy, file src/open-webui/claude-code.py).

The pipe forwards one chat turn to a Claude Code server and incrementally
re-renders the server's SSE-style event stream into display fragments.
This file shallowly embeds the pipe: JSON values are an inductive type,
`json.loads` is a fueled recursive-descent parser, the per-line stream
renderer is `processLine`/`runLines`, the per-event renderer is `dispatch`,
and the request-building glue (directive extraction, session-id scan) is
translated function by function.  Python runtime behaviour that the source
relies on (`str()` of decoded values, truthiness, `len`, slicing,
`str.replace`, `re.search`/`re.sub` for the five fixed patterns) is
modelled explicitly.  Python exception *messages* are abbreviated
stand-ins (no claim depends on their exact text); each emitted fragment is
paired with a `FragKind` tag recording which `yield` site produced it,
which the spec itself requires to be a preserved, inspectable category.
-/

set_option maxRecDepth 8192

namespace ClaudeCode

/-! ### Character and string helpers (Python semantics) -/

/-- Whitespace for Python `str.strip()` / regex `\s` (ASCII subset). -/
def isPySpace (c : Char) : Bool :=
  c = ' ' || c = '\t' || c = '\n' || c = '\r' || c = '\x0b' || c = '\x0c'

/-- Whitespace accepted between JSON tokens by `json.loads`. -/
def isJsonWs (c : Char) : Bool :=
  c = ' ' || c = '\t' || c = '\n' || c = '\r'

/-- Regex `\w` (modelled on ASCII: letters, digits, underscore). -/
def isWordChar (c : Char) : Bool :=
  c.isAlpha || c.isDigit || c = '_'

/-- Character class `[a-f0-9-]` of the `session_id` regex. -/
def isHexDashChar (c : Char) : Bool :=
  ('a' ≤ c && c ≤ 'f') || c.isDigit || c = '-'

def dropWhileEnd (p : Char → Bool) (l : List Char) : List Char :=
  (l.reverse.dropWhile p).reverse

/-- Python `str.strip(chars)`: drop characters satisfying `p` from both ends. -/
def stripClass (p : Char → Bool) (l : List Char) : List Char :=
  dropWhileEnd p (l.dropWhile p)

/-- Python `str.strip()` on a `String`. -/
def pyStrip (s : String) : String :=
  String.mk (stripClass isPySpace s.data)

/-- Python `str.startswith(pre)`. -/
def strStartsWith (s pre : String) : Bool :=
  pre.data.isPrefixOf s.data

/-- All occurrences of `pat` removed, scanning left to right and continuing
after each removal — the semantics of Python `s.replace(pat, "")`.
Fueled; the fuel is always instantiated with the length of the input. -/
def replaceAllAux (pat : List Char) : Nat → List Char → List Char
  | _, [] => []
  | 0, s => s
  | fuel + 1, c :: rest =>
    if pat.isPrefixOf (c :: rest) then
      replaceAllAux pat fuel ((c :: rest).drop pat.length)
    else
      c :: replaceAllAux pat fuel rest

/-- `line_text.replace("data: ", "")` from the source (line 107): note that
this removes EVERY occurrence of `"data: "`, not only a leading prefix. -/
def stripData (s : String) : String :=
  String.mk (replaceAllAux "data: ".data s.data.length s.data)

/-- Python first-500-characters slice `s[:500]`. -/
def take500 (s : String) : String :=
  String.mk (s.data.take 500)

def listHasInfix (sub : List Char) : List Char → Bool
  | [] => sub.isPrefixOf []
  | c :: rest => sub.isPrefixOf (c :: rest) || listHasInfix sub rest

/-- Substring test (used only in theorem statements). -/
def containsStr (s sub : String) : Bool :=
  listHasInfix sub.data s.data

/-! ### JSON values -/

/-- A decoded JSON value, as produced by Python's `json.loads`.
Numbers are modelled as integers; fractional/exponent literals are
rejected by the parser below (the source's `json.loads` would decode them
as floats — no claim depends on float payloads). -/
inductive Json where
  | null
  | bool (value : Bool)
  | num (value : Int)
  | str (value : String)
  | arr (items : List Json)
  | obj (pairs : List (String × Json))

/-- First value bound to `key` (dicts built by the parser hold each key once). -/
def lookupField : List (String × Json) → String → Option Json
  | [], _ => none
  | (k, v) :: fs, key => if k = key then some v else lookupField fs key

/-- Python dict insertion `d[k] = v`: an existing key keeps its position and
gets the new value (so duplicate keys in a JSON text resolve to the last
occurrence, as in `json.loads`); a new key is appended. -/
def insertField : List (String × Json) → String → Json → List (String × Json)
  | [], key, v => [(key, v)]
  | (k, w) :: fs, key, v =>
    if k = key then (k, v) :: fs else (k, w) :: insertField fs key v

/-- `d.get(key)` on a decoded dict: `None` when absent. -/
def jGet (fields : List (String × Json)) (key : String) : Json :=
  (lookupField fields key).getD Json.null

/-- `d.get(key, default)` on a decoded dict. -/
def jGetD (fields : List (String × Json)) (key : String) (d : Json) : Json :=
  (lookupField fields key).getD d

/-- Python `x == "lit"` where `x` came out of `json.loads`: only a string
compares equal to a string. -/
def isStrEq (j : Json) (s : String) : Bool :=
  match j with
  | .str t => t = s
  | _ => false

/-- Python truthiness of a decoded JSON value. -/
def truthy : Json → Bool
  | .null => false
  | .bool b => b
  | .num n => n ≠ 0
  | .str s => s ≠ ""
  | .arr xs => !xs.isEmpty
  | .obj fs => !fs.isEmpty

/-- Python type name, used in modelled exception messages. -/
def pyTypeName : Json → String
  | .null => "NoneType"
  | .bool _ => "bool"
  | .num _ => "int"
  | .str _ => "str"
  | .arr _ => "list"
  | .obj _ => "dict"

/-! ### Python `str()` / `repr()` of decoded JSON values -/

mutual

/-- Python `repr` of a value decoded from JSON (quote-escaping inside
`repr` of strings is not modelled; no claim exercises it). -/
def pyRepr : Json → String
  | .null => "None"
  | .bool true => "True"
  | .bool false => "False"
  | .num n => toString n
  | .str s => "\x27" ++ s ++ "\x27"
  | .arr xs => "[" ++ pyReprList xs ++ "]"
  | .obj fs => "\x7b" ++ pyReprFields fs ++ "\x7d"

def pyReprList : List Json → String
  | [] => ""
  | [x] => pyRepr x
  | x :: y :: xs => pyRepr x ++ ", " ++ pyReprList (y :: xs)

def pyReprFields : List (String × Json) → String
  | [] => ""
  | [(k, v)] => "\x27" ++ k ++ "\x27: " ++ pyRepr v
  | (k, v) :: f :: fs => "\x27" ++ k ++ "\x27: " ++ pyRepr v ++ ", " ++ pyReprFields (f :: fs)

end

/-- Python `str(x)` / f-string interpolation of a decoded JSON value:
a string renders as itself, everything else as its `repr`. -/
def pyStr : Json → String
  | .str s => s
  | j => pyRepr j

/-- Python `len(x)`: defined for str, list and dict; `none` models the
`TypeError` raised for other decoded values. -/
def pyLen : Json → Option Nat
  | .str s => some s.length
  | .arr xs => some xs.length
  | .obj fs => some fs.length
  | _ => none

/-- Python `x[:500] + "...(truncated)"`: succeeds only for strings
(`list[:500] + str` and slicing a dict/int raise `TypeError`, modelled as
`none`). -/
def pySliceTrunc : Json → Option String
  | .str s => some (take500 s ++ "...(truncated)")
  | _ => none

/-- `for item in x`: the item sequence, or a modelled `TypeError` message.
Iterating a string yields its characters, iterating a dict yields its keys
(each then fails `.get` downstream, as in Python). -/
def pyIter : Json → Except String (List Json)
  | .arr xs => .ok xs
  | .str s => .ok (s.data.map fun c => Json.str (String.mk [c]))
  | .obj fs => .ok (fs.map fun kv => Json.str kv.1)
  | j => .error ("\x27" ++ pyTypeName j ++ "\x27 object is not iterable")

/-- Modelled `AttributeError` for `.get` on a non-dict. -/
def noGetError (j : Json) : String :=
  "\x27" ++ pyTypeName j ++ "\x27 object has no attribute \x27get\x27"

/-- Modelled `TypeError` for `len()` of an unsized value. -/
def noLenError (j : Json) : String :=
  "object of type \x27" ++ pyTypeName j ++ "\x27 has no len()"

/-- Modelled `TypeError` for `x[:500] + "...(truncated)"` on a non-string. -/
def sliceConcatError (j : Json) : String :=
  "unsupported slice or concatenation for \x27" ++ pyTypeName j ++ "\x27"

/-! ### `json.loads` as a fueled recursive-descent parser.

Error messages are abbreviated stand-ins for CPython's
`json.JSONDecodeError` texts (which carry positions); no claim depends on
the message wording, only on success versus failure. -/

/-- One string escape character after a backslash. -/
def escChar (c : Char) : Option Char :=
  if c = '"' then some '"'
  else if c = '\\' then some '\\'
  else if c = '/' then some '/'
  else if c = 'n' then some '\n'
  else if c = 't' then some '\t'
  else if c = 'r' then some '\r'
  else if c = 'b' then some '\x08'
  else if c = 'f' then some '\x0c'
  else none

def hexDigitVal (c : Char) : Option Nat :=
  if c.isDigit then some (c.toNat - 48)
  else if 'a' ≤ c && c ≤ 'f' then some (c.toNat - 87)
  else if 'A' ≤ c && c ≤ 'F' then some (c.toNat - 55)
  else none

/-- Body of a JSON string after the opening quote; returns the decoded
characters and the remainder after the closing quote. -/
def parseStringBody : Nat → List Char → Except String (List Char × List Char)
  | 0, _ => .error "Unterminated string"
  | _ + 1, [] => .error "Unterminated string"
  | fuel + 1, c :: rest =>
    if c = '"' then .ok ([], rest)
    else if c = '\\' then
      match rest with
      | [] => .error "Unterminated string"
      | 'u' :: h1 :: h2 :: h3 :: h4 :: rest2 =>
        match hexDigitVal h1, hexDigitVal h2, hexDigitVal h3, hexDigitVal h4 with
        | some a, some b, some d, some e =>
          (parseStringBody fuel rest2).map fun p =>
            (Char.ofNat (((a * 16 + b) * 16 + d) * 16 + e) :: p.1, p.2)
        | _, _, _, _ => .error "Invalid unicode escape"
      | e :: rest2 =>
        match escChar e with
        | some d => (parseStringBody fuel rest2).map fun p => (d :: p.1, p.2)
        | none => .error "Invalid escape"
    else if c.toNat < 32 then .error "Invalid control character"
    else (parseStringBody fuel rest).map fun p => (c :: p.1, p.2)

def digitsToNat (ds : List Char) : Nat :=
  ds.foldl (fun a c => a * 10 + (c.toNat - 48)) 0

/-- JSON integer literal after an optional sign: `0`, or a nonzero digit
followed by digits (leading zeros terminate the literal, as in the JSON
grammar).  Fractional or exponent continuations are rejected (see `Json`). -/
def parseDigits : List Char → Except String (Nat × List Char)
  | [] => .error "Expecting value"
  | c :: rest =>
    if c = '0' then
      .ok (0, rest)
    else if c.isDigit then
      let ds := rest.takeWhile Char.isDigit
      .ok (digitsToNat (c :: ds), rest.drop ds.length)
    else .error "Expecting value"

def rejectFloatTail (rest : List Char) : Except String Unit :=
  match rest with
  | c :: _ =>
    if c = '.' || c = 'e' || c = 'E' then .error "float literals not modelled"
    else .ok ()
  | [] => .ok ()

mutual

def parseVal : Nat → List Char → Except String (Json × List Char)
  | 0, _ => .error "Expecting value"
  | fuel + 1, s =>
    let s := s.dropWhile isJsonWs
    match s with
    | [] => .error "Expecting value"
    | c :: rest =>
      if c = '\x7b' then parseMembersFirst fuel rest
      else if c = '[' then parseElemsFirst fuel rest
      else if c = '"' then
        (parseStringBody (rest.length + 1) rest).map fun p => (.str (String.mk p.1), p.2)
      else if c = '-' then
        match parseDigits rest with
        | .ok (n, r) =>
          match rejectFloatTail r with
          | .ok _ => .ok (.num (-(n : Int)), r)
          | .error e => .error e
        | .error e => .error e
      else if c.isDigit then
        match parseDigits (c :: rest) with
        | .ok (n, r) =>
          match rejectFloatTail r with
          | .ok _ => .ok (.num (n : Int), r)
          | .error e => .error e
        | .error e => .error e
      else if "true".data.isPrefixOf s then .ok (.bool true, s.drop 4)
      else if "false".data.isPrefixOf s then .ok (.bool false, s.drop 5)
      else if "null".data.isPrefixOf s then .ok (.null, s.drop 4)
      else .error "Expecting value"

/-- After `{`: either `}` or the first member. -/
def parseMembersFirst : Nat → List Char → Except String (Json × List Char)
  | 0, _ => .error "Expecting property name"
  | fuel + 1, s =>
    let s := s.dropWhile isJsonWs
    match s with
    | '\x7d' :: rest => .ok (.obj [], rest)
    | _ => parseMember fuel [] s

/-- One `"key": value` member, then `,` or `}`. -/
def parseMember : Nat → List (String × Json) → List Char → Except String (Json × List Char)
  | 0, _, _ => .error "Expecting property name"
  | fuel + 1, acc, s =>
    match s.dropWhile isJsonWs with
    | '"' :: rest =>
      match parseStringBody (rest.length + 1) rest with
      | .error e => .error e
      | .ok (keyChars, afterKey) =>
        match afterKey.dropWhile isJsonWs with
        | ':' :: afterColon =>
          match parseVal fuel afterColon with
          | .error e => .error e
          | .ok (v, afterVal) =>
            let acc := insertField acc (String.mk keyChars) v
            match afterVal.dropWhile isJsonWs with
            | ',' :: afterComma => parseMember fuel acc afterComma
            | '\x7d' :: afterBrace => .ok (.obj acc, afterBrace)
            | _ => .error "Expecting comma delimiter"
        | _ => .error "Expecting colon delimiter"
    | _ => .error "Expecting property name"

/-- After `[`: either `]` or the first element. -/
def parseElemsFirst : Nat → List Char → Except String (Json × List Char)
  | 0, _ => .error "Expecting value"
  | fuel + 1, s =>
    match s.dropWhile isJsonWs with
    | ']' :: rest => .ok (.arr [], rest)
    | s2 => parseElem fuel [] s2

/-- One array element, then `,` or `]`. -/
def parseElem : Nat → List Json → List Char → Except String (Json × List Char)
  | 0, _, _ => .error "Expecting value"
  | fuel + 1, acc, s =>
    match parseVal fuel s with
    | .error e => .error e
    | .ok (v, afterVal) =>
      match afterVal.dropWhile isJsonWs with
      | ',' :: afterComma => parseElem fuel (acc ++ [v]) afterComma
      | ']' :: afterBracket => .ok (.arr (acc ++ [v]), afterBracket)
      | _ => .error "Expecting comma delimiter"

end

/-- `json.loads`: one complete JSON value, with only whitespace allowed
after it. -/
def Json.parse (s : String) : Except String Json :=
  match parseVal (2 * s.data.length + 4) s.data with
  | .error e => .error e
  | .ok (j, rest) =>
    if (rest.dropWhile isJsonWs).isEmpty then .ok j
    else .error "Extra data"

/-! ### The event renderer (`Pipe.pipe`, lines 112–192)

Each emitted fragment is tagged with the `yield` site that produced it.
The displayed text is exactly the `String` component; the tag materialises
the fragment's category, which §6 of the design requires to stay
observable.  `dispatch` returns the fragments produced for one decoded
event plus, when the Python code would raise while handling that event,
the modelled exception message (the per-line `except` then renders it). -/

inductive FragKind where
  | sessionId    -- yield f"session_id={...}\n"
  | thinkOpen    -- yield "<thinking>\n"
  | thinkClose   -- yield "\n</thinking>\n"
  | thinking     -- yield f"\n🤖< {...}"
  | finalText    -- yield f"\n{text_content}"
  | toolUse      -- yield f"\n🔧 Using {name}: {...}\n"
  | toolOk       -- yield f"\n✅ Tool Result: {...}\n"
  | toolErr      -- yield f"\n❌ Tool Error: {...}\n"
  | errorEv      -- yield f"\⚠️ {...}\n"  (type: error events)
  | unknown      -- yield f"\n💩 {...}\n" (unrecognized events)
  | stray        -- yield f"\n💩 {...}\n" (non-"data: " lines)
  | excWarn      -- yield f"\n⚠️ {e}\n"  (dispatch-time exception)
  | parseWarn    -- yield f"\n⚠️ {e}\n"  (json.loads failure)
  | transportErr -- yield error_message  (non-200 status)
deriving DecidableEq, Repr

abbrev Frag := FragKind × String

/-- Prepend a fragment to an in-progress (fragments, exception) pair. -/
def consFrag (f : Frag) (p : List Frag × Option String) : List Frag × Option String :=
  (f :: p.1, p.2)

/-- The `for item in content:` loop of the assistant branch
(lines 128–149).  `is_final` is `stop_reason == "end_turn"`.  A raised
exception ends the loop, keeping the fragments yielded before it. -/
def renderAssistantItems (is_final : Bool) : List Json → List Frag × Option String
  | [] => ([], none)
  | item :: rest =>
    match item with
    | .obj ifs =>
      if isStrEq (jGet ifs "type") "text" then
        let text := jGetD ifs "text" (.str "")
        if is_final then
          -- Final response outside thinking, emitted verbatim (line 133)
          consFrag (.finalText, "\n" ++ pyStr text) (renderAssistantItems is_final rest)
        else
          match pyLen text with
          | none => ([], some (noLenError text))
          | some n =>
            if n > 500 then
              match pySliceTrunc text with
              | none => ([], some (sliceConcatError text))
              | some t => consFrag (.thinking, "\n🤖< " ++ t) (renderAssistantItems is_final rest)
            else
              consFrag (.thinking, "\n🤖< " ++ pyStr text) (renderAssistantItems is_final rest)
      else if isStrEq (jGet ifs "type") "tool_use" then
        let tool_name := jGetD ifs "name" (.str "Unknown")
        let tool_input := jGetD ifs "input" (.obj [])
        let tool_input_str := pyStr tool_input
        if tool_input_str.length > 500 then
          consFrag (.toolUse, "\n🔧 Using " ++ pyStr tool_name ++ ": "
              ++ (take500 tool_input_str ++ "...(truncated)") ++ "\n")
            (renderAssistantItems is_final rest)
        else
          consFrag (.toolUse, "\n🔧 Using " ++ pyStr tool_name ++ ": " ++ pyStr tool_input ++ "\n")
            (renderAssistantItems is_final rest)
      else
        renderAssistantItems is_final rest
    | j => ([], some (noGetError j))

/-- Assistant events (lines 118–149).  The thinking-close marker is
yielded before the content loop starts, so it precedes both the items'
fragments and any iteration-time exception. -/
def dispatchAssistant (fields : List (String × Json)) : List Frag × Option String :=
  match jGetD fields "message" (.obj []) with
  | .obj msgF =>
    let stop_reason := jGet msgF "stop_reason"
    let is_final := isStrEq stop_reason "end_turn"
    let closeFrags : List Frag := if is_final then [(.thinkClose, "\n</thinking>\n")] else []
    match pyIter (jGetD msgF "content" (.arr [])) with
    | .error e => (closeFrags, some e)
    | .ok items =>
      let p := renderAssistantItems is_final items
      (closeFrags ++ p.1, p.2)
  | j => ([], some (noGetError j))

/-- The `for item in content:` loop of the user branch (lines 155–167). -/
def renderUserItems : List Json → List Frag × Option String
  | [] => ([], none)
  | item :: rest =>
    match item with
    | .obj ifs =>
      if isStrEq (jGet ifs "type") "tool_result" then
        let tool_content := jGetD ifs "content" (.str "")
        let is_error := jGetD ifs "is_error" (.bool false)
        if truthy is_error then
          -- Error results are emitted verbatim, with no truncation (line 160)
          consFrag (.toolErr, "\n❌ Tool Error: " ++ pyStr tool_content ++ "\n") (renderUserItems rest)
        else
          match pyLen tool_content with
          | none => ([], some (noLenError tool_content))
          | some n =>
            if n > 500 then
              match pySliceTrunc tool_content with
              | none => ([], some (sliceConcatError tool_content))
              | some t => consFrag (.toolOk, "\n✅ Tool Result: " ++ t ++ "\n") (renderUserItems rest)
            else
              consFrag (.toolOk, "\n✅ Tool Result: " ++ pyStr tool_content ++ "\n") (renderUserItems rest)
      else
        renderUserItems rest
    | j => ([], some (noGetError j))

/-- User events (lines 151–167). -/
def dispatchUser (fields : List (String × Json)) : List Frag × Option String :=
  match jGetD fields "message" (.obj []) with
  | .obj msgF =>
    match pyIter (jGetD msgF "content" (.arr [])) with
    | .error e => ([], some e)
    | .ok items => renderUserItems items
  | j => ([], some (noGetError j))

/-- Error events (lines 174–182).  The Python literal `"\⚠️ ..."` keeps
its backslash (an invalid escape), so the fragment starts with `\⚠️`. -/
def dispatchError (fields : List (String × Json)) : List Frag × Option String :=
  let error_message := jGetD fields "error" (.str "Unknown error")
  let s := pyStr error_message
  if s.length > 500 then
    ([(.thinkClose, "\n</thinking>\n"),
      (.errorEv, "\\⚠️ " ++ (take500 s ++ "...(truncated)") ++ "\n")], none)
  else
    ([(.thinkClose, "\n</thinking>\n"),
      (.errorEv, "\\⚠️ " ++ pyStr error_message ++ "\n")], none)

/-- Unrecognized events (lines 184–192). -/
def dispatchUnknown (j : Json) : List Frag × Option String :=
  let s := pyStr j
  if s.length > 500 then
    ([(.unknown, "\n💩 " ++ (take500 s ++ "...(truncated)") ++ "\n")], none)
  else
    ([(.unknown, "\n💩 " ++ pyStr j ++ "\n")], none)

/-- Event dispatch (the if/elif chain on `json_data.get("type")`,
lines 112–192).  A non-dict event raises `AttributeError` at the first
`.get` before anything is yielded. -/
def dispatch (j : Json) : List Frag × Option String :=
  match j with
  | .obj fields =>
    if isStrEq (jGet fields "type") "system" && isStrEq (jGet fields "subtype") "init" then
      let sid := jGet fields "session_id"
      if truthy sid then
        ([(.sessionId, "session_id=" ++ pyStr sid ++ "\n"), (.thinkOpen, "<thinking>\n")], none)
      else ([], none)
    else if isStrEq (jGet fields "type") "assistant" then dispatchAssistant fields
    else if isStrEq (jGet fields "type") "user" then dispatchUser fields
    else if isStrEq (jGet fields "type") "result" then ([], none)
    else if isStrEq (jGet fields "type") "error" then dispatchError fields
    else dispatchUnknown j
  | _ => ([], some (noGetError j))

/-- All fragments one successfully parsed event leads to: its dispatch
output, followed by the warning the per-line `except` block (lines
201–204) yields when dispatch raised. -/
def eventFrags (j : Json) : List Frag :=
  match dispatch j with
  | (frags, none) => frags
  | (frags, some e) => frags ++ [(.excWarn, "\n⚠️ " ++ e ++ "\n")]

/-- Fragments of a whole event sequence, in arrival order (used to state
stream-level properties; `runLines` produces exactly these for the events
it parses, interleaved with line-level fragments). -/
def dispatchAll : List Json → List Frag
  | [] => []
  | j :: rest => eventFrags j ++ dispatchAll rest

/-- The fragment for a non-blank line without the `"data: "` prefix
(lines 193–200). -/
def strayFragText (line : String) : String :=
  if line.length > 500 then "\n💩 " ++ (take500 line ++ "...(truncated)") ++ "\n"
  else "\n💩 " ++ line ++ "\n"

/-! ### The per-line stream renderer (lines 100–204) -/

/-- Handling of one line from `response.iter_lines()`: returns the new
accumulation buffer, the fragments yielded for this line, and the decoded
event when the buffer parsed.  Empty lines are skipped (`if line:`);
`"data: "` lines are stripped with `str.replace` and appended to the
buffer; a parse failure keeps the extended buffer and yields the
exception warning; other non-blank lines pass through as stray output. -/
def processLine (buffer line : String) : String × List Frag × Option Json :=
  if line = "" then (buffer, [], none)
  else if strStartsWith line "data: " then
    let json_str := stripData line
    let buf := buffer ++ json_str
    match Json.parse buf with
    | .ok j => ("", eventFrags j, some j)
    | .error e => (buf, [(.parseWarn, "\n⚠️ " ++ e ++ "\n")], none)
  else if pyStrip line = "" then (buffer, [], none)
  else (buffer, [(.stray, strayFragText line)], none)

/-- The whole 200-OK loop: fold `processLine` over the lines, collecting
fragments and successfully parsed events in order. -/
def runLines (buffer : String) : List String → List Frag × List Json
  | [] => ([], [])
  | line :: rest =>
    let step := processLine buffer line
    let tail := runLines step.1 rest
    (step.2.1 ++ tail.1, step.2.2.toList ++ tail.2)

/-! ### Transport handling (lines 93–98, 100, 205–215) -/

/-- The HTTP response as this pipe observes it: a status code, the body
used by `response.json()` in the non-200 branch, and the decoded lines
`response.iter_lines()` yields in the 200 branch. -/
structure HttpResponse where
  status : Nat
  body : String
  lines : List String

/-- The non-200 branch (lines 205–215).  `"error" in error_data` followed
by `error_data["error"]` succeeds only when the body is a JSON object
with an `error` key; every other body (unparseable, or a non-dict whose
membership test or indexing raises inside the bare `except`) leaves the
base message unchanged. -/
def renderNon200 (status : Nat) (body : String) : String :=
  let error_message := "Workflow request failed with status code: " ++ toString status
  match Json.parse body with
  | .ok (.obj fields) =>
    match lookupField fields "error" with
    | some v => error_message ++ " - " ++ pyStr v
    | none => error_message
  | _ => error_message

/-- Render one HTTP response: the streaming loop on 200, otherwise the
single transport-error fragment. -/
def handleResponse (r : HttpResponse) : List Frag :=
  if r.status = 200 then (runLines "" r.lines).1
  else [(.transportErr, renderNon200 r.status r.body)]

/-! ### The request-building glue (lines 40–98)

The five regular expressions of the source are fixed, so each is
translated directly: a literal, followed by a character class, optionally
closed by a terminator character that the class excludes.  `re.search`
scans left to right and, because each class excludes its terminator,
greedy matching with backtracking degenerates to "maximal run, then the
terminator must be the next character". -/

/-- Try the pattern `lit (cls+) term?` at the head of `s`; on success
return the group and the remainder after the whole match. -/
def matchGroupAt (lit : List Char) (cls : Char → Bool) (term : Option Char)
    (s : List Char) : Option (List Char × List Char) :=
  if lit.isPrefixOf s then
    let after := s.drop lit.length
    let g := after.takeWhile cls
    if g.isEmpty then none
    else
      match term with
      | none => some (g, after.drop g.length)
      | some t =>
        match after.drop g.length with
        | c :: rest => if c = t then some (g, rest) else none
        | [] => none
  else none

/-- `re.search` for `lit (cls+) term?`: the group of the leftmost match. -/
def searchGroup (lit : List Char) (cls : Char → Bool) (term : Option Char) :
    List Char → Option (List Char)
  | [] => (matchGroupAt lit cls term []).map Prod.fst
  | c :: rest =>
    match matchGroupAt lit cls term (c :: rest) with
    | some p => some p.1
    | none => searchGroup lit cls term rest

/-- `re.search(r"session_id=([a-f0-9-]+)", content)`, group 1 (line 52). -/
def sessionMatch (content : String) : Option String :=
  (searchGroup "session_id=".data isHexDashChar none content.data).map String.mk

/-- One chat message as the pipe reads it: `messages[i].get("role")`
(`none` models an absent key) and `messages[i].get("content", "")`
(an absent key is the default `""`; non-string contents are out of the
model, the source would raise inside `re.search` on them). -/
structure Msg where
  role? : Option String
  content : String
deriving DecidableEq, Repr

/-- The backward scan for a session id (lines 48–55): walk
`messages[:-1]` from the end; at the FIRST message whose role is
`assistant`, search its content and stop — the `break` runs whether or
not the search matched, so earlier assistant messages are never
examined. -/
def findSessionId (messages : List Msg) : Option String :=
  match messages.dropLast.reverse.find? (fun m => m.role? == some "assistant") with
  | some m => sessionMatch m.content
  | none => none

/-- `re.search(r"dangerously-skip-permissions=(\w+)", ...)` plus the
`.lower() == "true"` conversion (lines 57–60). -/
def parseSkipPermissions (user_message : String) : Option Bool :=
  (searchGroup "dangerously-skip-permissions=".data isWordChar none user_message.data).map
    fun g => (String.mk g).toLower = "true"

/-- `[tool.strip().strip('"\'') for tool in group.split(',')]`
(lines 65 and 70). -/
def parseToolNames (group : List Char) : List String :=
  (group.splitOn ',').map fun t =>
    String.mk (stripClass (fun c => c = '"' || c = '\x27') (stripClass isPySpace t))

/-- `re.search(r"allowedTools=\[([^\]]+)\]", ...)` (lines 62–65). -/
def parseAllowedTools (user_message : String) : Option (List String) :=
  (searchGroup "allowedTools=[".data (fun c => c ≠ ']') (some ']') user_message.data).map
    parseToolNames

/-- `re.search(r"disallowedTools=\[([^\]]+)\]", ...)` (lines 67–70). -/
def parseDisallowedTools (user_message : String) : Option (List String) :=
  (searchGroup "disallowedTools=[".data (fun c => c ≠ ']') (some ']') user_message.data).map
    parseToolNames

/-- One alternative of the `re.sub` pattern of line 76, tried at the head
of `s` in the pattern's left-to-right order; returns the remainder after
the matched directive. -/
def matchDirectiveAt (s : List Char) : Option (List Char) :=
  match matchGroupAt "dangerously-skip-permissions=".data isWordChar none s with
  | some p => some p.2
  | none =>
  match matchGroupAt "allowedTools=[".data (fun c => c ≠ ']') (some ']') s with
  | some p => some p.2
  | none =>
  match matchGroupAt "disallowedTools=[".data (fun c => c ≠ ']') (some ']') s with
  | some p => some p.2
  | none =>
  match matchGroupAt "prompt=\"".data (fun c => c ≠ '"') (some '"') s with
  | some p => some p.2
  | none =>
    if "prompt=".data.isPrefixOf s then some (s.drop 7) else none

/-- `re.sub(pattern, "", user_message)` of line 76: delete every directive
occurrence together with the trailing `\s*` group; where no alternative
matches, keep the character and move on.  Fueled by the input length
(every match consumes at least one character). -/
def subDirectives : Nat → List Char → List Char
  | 0, s => s
  | _ + 1, [] => []
  | fuel + 1, c :: rest =>
    match matchDirectiveAt (c :: rest) with
    | some rem => subDirectives fuel (rem.dropWhile isPySpace)
    | none => c :: subDirectives fuel rest

/-- Prompt selection (lines 72–78): an explicit `prompt="..."` wins;
otherwise the message with all directives deleted, stripped; if that is
empty, the whole original message. -/
def extractPrompt (user_message : String) : String :=
  match searchGroup "prompt=\"".data (fun c => c ≠ '"') (some '"') user_message.data with
  | some g => String.mk g
  | none =>
    let prompt := pyStrip (String.mk (subDirectives user_message.data.length user_message.data))
    if prompt = "" then user_message else prompt

/-- The JSON body POSTed to `/api/claude`; `none` fields are absent keys
(lines 80–88: `session_id` and the tool lists are added only when truthy,
the skip flag whenever it `is not None`). -/
structure RequestData where
  prompt : String
  session_id : Option String
  dangerously_skip_permissions : Option Bool
  allowedTools : Option (List String)
  disallowedTools : Option (List String)
deriving DecidableEq, Repr

def buildData (prompt : String) (session_id : Option String)
    (dsp : Option Bool) (allowed disallowed : Option (List String)) : RequestData :=
  { prompt := prompt
    session_id :=
      match session_id with
      | some s => if s ≠ "" then some s else none
      | none => none
    dangerously_skip_permissions := dsp
    allowedTools :=
      match allowed with
      | some l => if !l.isEmpty then some l else none
      | none => none
    disallowedTools :=
      match disallowed with
      | some l => if !l.isEmpty then some l else none
      | none => none }

/-- What one invocation of the generator `Pipe.pipe` amounts to:
whether (and with what body) the outbound POST was made, the fragments
yielded, and the generator's return value. -/
structure PipeOutcome where
  request : Option RequestData
  frags : List Frag
  retval : Option String
deriving DecidableEq, Repr

/-- `Pipe.pipe` (lines 40–215).  `messages?` models `body.get("messages",
[])` (`none` = key absent); the HTTP transport is passed as a function
from the request body to the response it produces. -/
def pipe (messages? : Option (List Msg)) (transport : RequestData → HttpResponse) :
    PipeOutcome :=
  let messages := messages?.getD []
  if messages.isEmpty then
    { request := none, frags := [], retval := some "Error: No messages provided" }
  else
    let user_message := ((messages.getLast?).getD { role? := none, content := "" }).content
    let session_id := findSessionId messages
    let dangerously_skip_permissions := parseSkipPermissions user_message
    let allowedTools := parseAllowedTools user_message
    let disallowedTools := parseDisallowedTools user_message
    let data := buildData (extractPrompt user_message) session_id
      dangerously_skip_permissions allowedTools disallowedTools
    let response := transport data
    { request := some data, frags := handleResponse response, retval := none }

/-! ### Definitions used to state the claims -/

/-- A `text` content item. -/
def textItem (t : String) : Json :=
  .obj [("type", .str "text"), ("text", .str t)]

/-- A `tool_use` content item. -/
def toolUseItem (name : String) (input : Json) : Json :=
  .obj [("type", .str "tool_use"), ("name", .str name), ("input", input)]

/-- A `tool_result` content item. -/
def toolResultItem (content : Json) (is_error : Bool) : Json :=
  .obj [("type", .str "tool_result"), ("content", content), ("is_error", .bool is_error)]

/-- An assistant event with the given `stop_reason` and content items. -/
def assistantEv (stop_reason : Json) (items : List Json) : Json :=
  .obj [("type", .str "assistant"),
        ("message", .obj [("stop_reason", stop_reason), ("content", .arr items)])]

/-- A user event carrying the given content items. -/
def userEv (items : List Json) : Json :=
  .obj [("type", .str "user"), ("message", .obj [("content", .arr items)])]

/-- A `system`/`init` event carrying a session id. -/
def initEv (sid : String) : Json :=
  .obj [("type", .str "system"), ("subtype", .str "init"), ("session_id", .str sid)]

/-- The length cap the truncation sites enforce on their variable content:
500 characters plus the fixed marker. -/
def truncBound : Nat := 500 + "...(truncated)".length

/-- Per-kind shape of an emitted fragment, as the amended claim C1 states
it: the six truncating `yield` sites carry a content part of at most
`truncBound` characters inside their fixed decoration, while final
(`end_turn`) text and `is_error` tool results embed their content
verbatim, with no bound.  Fixed-text and warning fragments are
unconstrained. -/
def fragOk : Frag → Prop
  | (.thinking, s) => ∃ c, s = "\n🤖< " ++ c ∧ c.length ≤ truncBound
  | (.toolUse, s) => ∃ nm c, s = "\n🔧 Using " ++ nm ++ ": " ++ c ++ "\n" ∧ c.length ≤ truncBound
  | (.toolOk, s) => ∃ c, s = "\n✅ Tool Result: " ++ c ++ "\n" ∧ c.length ≤ truncBound
  | (.errorEv, s) => ∃ c, s = "\\⚠️ " ++ c ++ "\n" ∧ c.length ≤ truncBound
  | (.unknown, s) => ∃ c, s = "\n💩 " ++ c ++ "\n" ∧ c.length ≤ truncBound
  | (.stray, s) => ∃ c, s = "\n💩 " ++ c ++ "\n" ∧ c.length ≤ truncBound
  | (.finalText, s) => ∃ c, s = "\n" ++ c
  | (.toolErr, s) => ∃ c, s = "\n❌ Tool Error: " ++ c ++ "\n"
  | _ => True

/-- The `text` field of a `text` item and the `content` field of a
`tool_result` item are strings (or absent, defaulting to `""`).  The
length checks of the source count characters only under this typing; for
list- or dict-valued fields Python's `len` counts elements, which claim
C1's character bound does not describe. -/
def itemStrTyped (item : Json) : Bool :=
  match item with
  | .obj ifs =>
    (!(isStrEq (jGet ifs "type") "text") ||
      (match lookupField ifs "text" with
       | some (.str _) => true
       | none => true
       | _ => false)) &&
    (!(isStrEq (jGet ifs "type") "tool_result") ||
      (match lookupField ifs "content" with
       | some (.str _) => true
       | none => true
       | _ => false))
  | _ => true

/-- Events whose text-bearing item fields are strings (see
`itemStrTyped`); trivially true for events without content items and for
shapes on which dispatch raises before reaching a length check. -/
def strTyped (j : Json) : Bool :=
  match j with
  | .obj fields =>
    if isStrEq (jGet fields "type") "assistant" || isStrEq (jGet fields "type") "user" then
      match jGetD fields "message" (.obj []) with
      | .obj msgF =>
        match jGetD msgF "content" (.arr []) with
        | .arr items => items.all itemStrTyped
        | _ => true
      | _ => true
    else true
  | _ => true

/-- Thinking-region content: the region opener or a thinking-glyph
fragment. -/
def isThinkingKind (k : FragKind) : Bool :=
  k = .thinkOpen || k = .thinking

/-- `true` for an assistant event that either carries
`stop_reason == "end_turn"` or whose non-dict `message` makes dispatch
raise before yielding anything. -/
def assistantFinalOrRaises (fields : List (String × Json)) : Bool :=
  match jGetD fields "message" (.obj []) with
  | .obj msgF => isStrEq (jGet msgF "stop_reason") "end_turn"
  | _ => true

/-- Events other than the two that can emit thinking-region content: an
`init` event carrying a truthy session id, and an assistant event without
`stop_reason == "end_turn"`. -/
def emitsNoThinking (j : Json) : Bool :=
  match j with
  | .obj fields =>
    !(isStrEq (jGet fields "type") "system" && isStrEq (jGet fields "subtype") "init"
        && truthy (jGet fields "session_id")) &&
    (!(isStrEq (jGet fields "type") "assistant") || assistantFinalOrRaises fields)
  | _ => true

/-- 600 identical characters: a final-text payload exceeding every
truncation bound. -/
def longText : String := String.mk (List.replicate 600 'a')

/-! ### Helper lemmas -/

theorem strLength_append (a b : String) : (a ++ b).length = a.length + b.length := by
  show (a ++ b).data.length = a.data.length + b.data.length
  rw [String.data_append]
  exact List.length_append _ _

theorem take500_length (s : String) : (take500 s).length = min 500 s.length :=
  List.length_take 500 s.data

theorem trunc_length_le (s : String) : (take500 s ++ "...(truncated)").length ≤ truncBound := by
  rw [strLength_append, take500_length]
  have h1 : min 500 s.length ≤ 500 := Nat.min_le_left _ _
  have h2 : truncBound = 500 + "...(truncated)".length := rfl
  omega

theorem isPrefixOf_append_self (l t : List Char) : l.isPrefixOf (l ++ t) = true := by
  induction l with
  | nil => simp [List.isPrefixOf]
  | cons c cs ih => simp [List.isPrefixOf, ih]

theorem dataLine_startsWith (s : String) : strStartsWith ("data: " ++ s) "data: " = true := by
  show "data: ".data.isPrefixOf ("data: " ++ s).data = true
  rw [String.data_append]
  exact isPrefixOf_append_self _ _

theorem dataLine_ne_empty (s : String) : ("data: " ++ s) ≠ "" := by
  intro h
  have hl := congrArg String.length h
  rw [strLength_append] at hl
  have h6 : ("data: " : String).length = 6 := rfl
  have h0 : ("" : String).length = 0 := rfl
  omega

/-- The `"data: "` branch of `processLine`, with the two `if`s resolved. -/
theorem processLine_data (buffer line : String)
    (hdata : strStartsWith line "data: " = true) (hne : line ≠ "") :
    processLine buffer line =
      match Json.parse (buffer ++ stripData line) with
      | .ok j => ("", eventFrags j, some j)
      | .error e =>
        (buffer ++ stripData line, [(.parseWarn, "\n⚠️ " ++ e ++ "\n")], none) := by
  unfold processLine
  rw [if_neg hne, if_pos hdata]

/-! ### C4 -/

/-- C4 (code_bug): the claim says a `data: ` line is stripped of exactly
its leading prefix, preserving interior `"data: "` occurrences.  The code
uses `line_text.replace("data: ", "")`, which removes every occurrence:
on the line `data: {"k":"data: y"}` the interior occurrence inside the
JSON string value is deleted too, so the buffer receives the corrupted
payload `{"k":"y"}` instead of the original `{"k":"data: y"}`. -/
theorem C4_replace_not_prefix_strip :
    stripData "data: \x7b\"k\":\"data: y\"\x7d" = "\x7b\"k\":\"y\"\x7d" ∧
    stripData "data: \x7b\"k\":\"data: y\"\x7d" ≠ "\x7b\"k\":\"data: y\"\x7d" := by
  decide

/-! ### C5 -/

/-- C5 (confirmed): on a non-200 status no line is parsed and exactly one
fragment is emitted; it names the status code, and when the body is a
JSON object with an `error` field that field's value is appended — for
status 400 with body `{"error": "bad request"}` the single fragment
contains both `400` and `bad request`. -/
theorem C5_non200_single_fragment :
    (∀ r : HttpResponse, r.status ≠ 200 →
      handleResponse r = [(FragKind.transportErr, renderNon200 r.status r.body)]) ∧
    renderNon200 400 "\x7b\"error\": \"bad request\"\x7d" =
      "Workflow request failed with status code: 400 - bad request" ∧
    containsStr (renderNon200 400 "\x7b\"error\": \"bad request\"\x7d") "400" = true ∧
    containsStr (renderNon200 400 "\x7b\"error\": \"bad request\"\x7d") "bad request" = true := by
  refine ⟨?_, by decide, by decide, by decide⟩
  intro r h
  unfold handleResponse
  rw [if_neg h]

/-- C5 witness: the theorem applied to the concrete 400 response. -/
theorem C5_witness :
    handleResponse ⟨400, "\x7b\"error\": \"bad request\"\x7d", []⟩ =
      [(FragKind.transportErr, renderNon200 400 "\x7b\"error\": \"bad request\"\x7d")] :=
  C5_non200_single_fragment.1 ⟨400, "\x7b\"error\": \"bad request\"\x7d", []⟩ (by decide)

/-! ### C10 -/

/-- C10 (confirmed): with the `messages` key absent or the list empty,
`pipe` makes no outbound request, yields no fragments, and returns
(as the generator's return value) `"Error: No messages provided"`. -/
theorem C10_no_messages :
    ∀ transport : RequestData → HttpResponse,
      pipe none transport =
        { request := none, frags := [], retval := some "Error: No messages provided" } ∧
      pipe (some []) transport =
        { request := none, frags := [], retval := some "Error: No messages provided" } := by
  intro t
  exact ⟨rfl, rfl⟩

/-! ### C2 -/

/-- C2 (corrected): when the accumulated buffer of a `data: ` line fails
to parse, the buffer is NOT cleared — the partial content is retained and
the next line's remainder is appended to it — but, contrary to the claim,
the line does not go unreported: `json.loads` raises, the per-line
`except` catches it, and one warning fragment carrying the decode error
is yielded for that line. -/
theorem C2_parse_failure_keeps_buffer (buffer line e : String)
    (hdata : strStartsWith line "data: " = true)
    (hfail : Json.parse (buffer ++ stripData line) = .error e) :
    processLine buffer line =
      (buffer ++ stripData line, [(FragKind.parseWarn, "\n⚠️ " ++ e ++ "\n")], none) := by
  have hne : line ≠ "" := by
    intro h
    subst h
    exact absurd hdata (by decide)
  rw [processLine_data buffer line hdata hne, hfail]

/-- C2 witness: the theorem applied to an opening brace split off from
its value. -/
theorem C2_witness :
    processLine "" "data: \x7b" =
      ("" ++ stripData "data: \x7b",
       [(FragKind.parseWarn, "\n⚠️ " ++ "Expecting property name" ++ "\n")], none) :=
  C2_parse_failure_keeps_buffer "" "data: \x7b" "Expecting property name" (by decide) (by rfl)

/-- C2 counterexample: the claim as stated — "the renderer emits no
fragment for that line" — is false: a lone `data: {"type"` line yields a
(warning) fragment, while the buffer is indeed retained. -/
theorem C2_counterexample :
    (processLine "" "data: \x7b\"type\"").2.1 ≠ [] ∧
    (processLine "" "data: \x7b\"type\"").1 = "\x7b\"type\"" := by
  constructor
  · intro h
    exact absurd h (by decide)
  · decide

/-! ### C3 -/

/-- C3 (corrected): splitting a payload across two `data: ` lines
reproduces the single-line event dispatch — same parsed events, same
event-derived fragments — provided the `str.replace`-stripped halves
recompose to the stripped whole (no `"data: "` occurrence straddles the
split) and the first half alone is not complete JSON; the split run
additionally emits one parse-failure warning fragment before the
dispatch, which the single-line run does not. -/
theorem C3_split_reassembly (p p1 p2 e : String)
    (hsplit : stripData ("data: " ++ p1) ++ stripData ("data: " ++ p2) =
      stripData ("data: " ++ p))
    (hfail : Json.parse (stripData ("data: " ++ p1)) = .error e) :
    runLines "" ["data: " ++ p1, "data: " ++ p2] =
      ((FragKind.parseWarn, "\n⚠️ " ++ e ++ "\n") :: (runLines "" ["data: " ++ p]).1,
       (runLines "" ["data: " ++ p]).2) := by
  have hp1 : processLine "" ("data: " ++ p1) =
      (stripData ("data: " ++ p1),
       [(.parseWarn, "\n⚠️ " ++ e ++ "\n")], none) := by
    rw [processLine_data "" ("data: " ++ p1) (dataLine_startsWith p1) (dataLine_ne_empty p1)]
    have h0 : ("" ++ stripData ("data: " ++ p1)) = stripData ("data: " ++ p1) := rfl
    rw [h0, hfail]
  have hp2 : processLine (stripData ("data: " ++ p1)) ("data: " ++ p2) =
      match Json.parse (stripData ("data: " ++ p)) with
      | .ok j => ("", eventFrags j, some j)
      | .error e2 =>
        (stripData ("data: " ++ p), [(.parseWarn, "\n⚠️ " ++ e2 ++ "\n")], none) := by
    rw [processLine_data _ ("data: " ++ p2) (dataLine_startsWith p2) (dataLine_ne_empty p2),
      hsplit]
  have hp : processLine "" ("data: " ++ p) =
      match Json.parse (stripData ("data: " ++ p)) with
      | .ok j => ("", eventFrags j, some j)
      | .error e2 =>
        ("" ++ stripData ("data: " ++ p), [(.parseWarn, "\n⚠️ " ++ e2 ++ "\n")], none) := by
    rw [processLine_data "" ("data: " ++ p) (dataLine_startsWith p) (dataLine_ne_empty p)]
    rfl
  simp only [runLines, hp1, hp2, hp]
  cases hJ : Json.parse (stripData ("data: " ++ p)) <;> simp

/-- C3 witness: the theorem applied to `{"k":"data: y"}` split after the
colon (both runs then decode the same — interior-corrupted, see C4 —
payload and dispatch identically). -/
theorem C3_witness :
    runLines "" ["data: " ++ "\x7b\"k\":", "data: " ++ "\"data: y\"\x7d"] =
      ((FragKind.parseWarn, "\n⚠️ " ++ "Expecting value" ++ "\n") ::
        (runLines "" ["data: " ++ "\x7b\"k\":\"data: y\"\x7d"]).1,
       (runLines "" ["data: " ++ "\x7b\"k\":\"data: y\"\x7d"]).2) :=
  C3_split_reassembly "\x7b\"k\":\"data: y\"\x7d" "\x7b\"k\":" "\"data: y\"\x7d"
    "Expecting value" (by decide) (by rfl)

/-- C3 counterexample: the claim as stated quantifies over every payload
and every split.  Splitting `{"k":"data: y"}` in the middle of its
interior `"data: "` occurrence changes the dispatch: fed as one line, the
`str.replace` stripping deletes the interior occurrence and the stream
renders the corrupted event `{'k': 'y'}`; fed split, each half escapes
the replacement, the reassembled buffer parses to the original payload,
and the stream renders `{'k': 'data: y'}` — different event-derived
fragments. -/
theorem C3_counterexample :
    (runLines "" ["data: \x7b\"k\":\"data: y\"\x7d"]).1 =
      [(FragKind.unknown, "\n💩 \x7b\x27k\x27: \x27y\x27\x7d\n")] ∧
    (runLines "" ["data: \x7b\"k\":\"dat", "data: a: y\"\x7d"]).1 =
      [(FragKind.parseWarn, "\n⚠️ Unterminated string\n"),
       (FragKind.unknown, "\n💩 \x7b\x27k\x27: \x27data: y\x27\x7d\n")] ∧
    ("\n💩 \x7b\x27k\x27: \x27y\x27\x7d\n" : String) ≠
      "\n💩 \x7b\x27k\x27: \x27data: y\x27\x7d\n" := by
  refine ⟨by decide, by decide, by decide⟩

/-! ### C7 -/

/-- C7 (confirmed): an `init` system event carrying a (truthy) session id
is dispatched to exactly `session_id=<id>` followed by the
thinking-region opener, and both precede every fragment of every later
event — in particular all thinking text. -/
theorem C7_init_session_first (fields : List (String × Json)) (sid : String) (rest : List Json)
    (h1 : lookupField fields "type" = some (.str "system"))
    (h2 : lookupField fields "subtype" = some (.str "init"))
    (h3 : lookupField fields "session_id" = some (.str sid))
    (h4 : sid ≠ "") :
    dispatchAll (Json.obj fields :: rest) =
      (FragKind.sessionId, "session_id=" ++ sid ++ "\n") ::
      (FragKind.thinkOpen, "<thinking>\n") :: dispatchAll rest := by
  have e1 : jGet fields "type" = .str "system" := by simp [jGet, h1]
  have e2 : jGet fields "subtype" = .str "init" := by simp [jGet, h2]
  have e3 : jGet fields "session_id" = .str sid := by simp [jGet, h3]
  have htr : truthy (Json.str sid) = true := by simp [truthy, h4]
  have hdisp : dispatch (Json.obj fields) =
      ([(.sessionId, "session_id=" ++ sid ++ "\n"), (.thinkOpen, "<thinking>\n")], none) := by
    simp [dispatch, e1, e2, e3, htr, isStrEq, pyStr]
  simp only [dispatchAll, eventFrags, hdisp]
  rfl

/-- C7 witness: the theorem applied to session id `abc-123` followed by a
thinking-text event; the `session_id=abc-123` fragment is first. -/
theorem C7_witness :
    dispatchAll [Json.obj [("type", Json.str "system"), ("subtype", Json.str "init"),
        ("session_id", Json.str "abc-123")],
      assistantEv Json.null [textItem "step"]] =
      (FragKind.sessionId, "session_id=" ++ "abc-123" ++ "\n") ::
      (FragKind.thinkOpen, "<thinking>\n") ::
      dispatchAll [assistantEv Json.null [textItem "step"]] :=
  C7_init_session_first
    [("type", Json.str "system"), ("subtype", Json.str "init"),
     ("session_id", Json.str "abc-123")]
    "abc-123" [assistantEv Json.null [textItem "step"]] rfl rfl rfl (by decide)

/-! ### C6 -/

/-- In the final (`end_turn`) rendering mode no content item yields
thinking-region content: text items yield plain final text, tool uses
yield tool fragments. -/
theorem renderAssistantItems_final_kinds (items : List Json) :
    ∀ fr ∈ (renderAssistantItems true items).1, isThinkingKind fr.1 = false := by
  induction items with
  | nil => intro fr h; simp [renderAssistantItems] at h
  | cons item rest ih =>
    intro fr h
    cases item with
    | obj ifs =>
      simp only [renderAssistantItems, consFrag] at h
      split at h
      · -- text item; in final mode it is a finalText fragment
        split at h
        · rcases List.mem_cons.mp h with h2 | h2
          · subst h2; rfl
          · exact ih fr h2
        · next hfalse => exact absurd trivial hfalse
      · split at h
        · -- tool_use item, truncated or not
          split at h <;>
          · rcases List.mem_cons.mp h with h2 | h2
            · subst h2; rfl
            · exact ih fr h2
        · exact ih fr h
    | null => simp [renderAssistantItems] at h
    | bool b => simp [renderAssistantItems] at h
    | num n => simp [renderAssistantItems] at h
    | str s => simp [renderAssistantItems] at h
    | arr xs => simp [renderAssistantItems] at h

/-- C6 (confirmed): an assistant event whose message carries
`stop_reason == "end_turn"` yields the thinking-close marker as its very
first fragment — before any content item, hence also when no thinking
content was ever emitted (dispatch is independent of stream history) —
and then renders every `text` item verbatim as a final-text fragment,
outside the thinking region. -/
theorem C6_end_turn_closes_before_text (fields msgF : List (String × Json)) (items : List Json)
    (h1 : lookupField fields "type" = some (.str "assistant"))
    (h2 : lookupField fields "message" = some (.obj msgF))
    (h3 : lookupField msgF "stop_reason" = some (.str "end_turn"))
    (h4 : lookupField msgF "content" = some (.arr items)) :
    dispatch (.obj fields) =
      ((FragKind.thinkClose, "\n</thinking>\n") :: (renderAssistantItems true items).1,
       (renderAssistantItems true items).2) ∧
    (∀ fr ∈ (renderAssistantItems true items).1, isThinkingKind fr.1 = false) ∧
    (∀ t rest2, renderAssistantItems true (textItem t :: rest2) =
       ((FragKind.finalText, "\n" ++ t) :: (renderAssistantItems true rest2).1,
        (renderAssistantItems true rest2).2)) := by
  refine ⟨?_, renderAssistantItems_final_kinds items, fun t rest2 => rfl⟩
  have e1 : jGet fields "type" = .str "assistant" := by simp [jGet, h1]
  have e2 : jGetD fields "message" (.obj []) = .obj msgF := by simp [jGetD, h2]
  have e3 : jGet msgF "stop_reason" = .str "end_turn" := by simp [jGet, h3]
  have e4 : jGetD msgF "content" (.arr []) = .arr items := by simp [jGetD, h4]
  simp [dispatch, dispatchAssistant, e1, e2, e3, e4, isStrEq, pyIter]

/-- C6 witness: the theorem applied to a one-text-item `end_turn` event. -/
theorem C6_witness :
    dispatch (.obj [("type", Json.str "assistant"),
        ("message", Json.obj [("stop_reason", Json.str "end_turn"),
          ("content", Json.arr [textItem "ok"])])]) =
      ((FragKind.thinkClose, "\n</thinking>\n") :: (renderAssistantItems true [textItem "ok"]).1,
       (renderAssistantItems true [textItem "ok"]).2) :=
  (C6_end_turn_closes_before_text
    [("type", Json.str "assistant"),
     ("message", Json.obj [("stop_reason", Json.str "end_turn"),
       ("content", Json.arr [textItem "ok"])])]
    [("stop_reason", Json.str "end_turn"), ("content", Json.arr [textItem "ok"])]
    [textItem "ok"] rfl rfl rfl rfl).1

/-! ### C8 -/

/-- Tool-result rendering yields only toolOk/toolErr fragments, never
thinking-region content. -/
theorem renderUserItems_kinds (items : List Json) :
    ∀ fr ∈ (renderUserItems items).1, isThinkingKind fr.1 = false := by
  induction items with
  | nil => intro fr h; simp [renderUserItems] at h
  | cons item rest ih =>
    intro fr h
    cases item with
    | obj ifs =>
      simp only [renderUserItems, consFrag] at h
      split at h
      · split at h
        · rcases List.mem_cons.mp h with h2 | h2
          · subst h2; rfl
          · exact ih fr h2
        · split at h
          · simp at h
          · split at h
            · split at h
              · simp at h
              · rcases List.mem_cons.mp h with h2 | h2
                · subst h2; rfl
                · exact ih fr h2
            · rcases List.mem_cons.mp h with h2 | h2
              · subst h2; rfl
              · exact ih fr h2
      · exact ih fr h
    | null => simp [renderUserItems] at h
    | bool b => simp [renderUserItems] at h
    | num n => simp [renderUserItems] at h
    | str s => simp [renderUserItems] at h
    | arr xs => simp [renderUserItems] at h

/-- Dispatch of an event outside the two thinking-emitting categories
(see `emitsNoThinking`) yields no thinking-region fragment. -/
theorem dispatch_no_thinking (j : Json) (h : emitsNoThinking j = true) :
    ∀ fr ∈ (dispatch j).1, isThinkingKind fr.1 = false := by
  intro fr hfr
  cases j with
  | obj fields =>
    rw [emitsNoThinking, Bool.and_eq_true] at h
    obtain ⟨hinit, hassist⟩ := h
    rw [dispatch] at hfr
    dsimp only at hfr
    split at hfr
    · -- system/init branch
      next hcond =>
        split at hfr
        · next htr =>
            exfalso
            rw [Bool.and_eq_true] at hcond
            rw [hcond.1, hcond.2, htr] at hinit
            simp at hinit
        · simp at hfr
    · split at hfr
      · -- assistant branch
        next hA =>
          have hfin : assistantFinalOrRaises fields = true := by
            rw [Bool.or_eq_true] at hassist
            rcases hassist with hx | hx
            · rw [hA] at hx; simp at hx
            · exact hx
          rw [dispatchAssistant] at hfr
          split at hfr
          · next msgF heqmsg =>
              rw [assistantFinalOrRaises, heqmsg] at hfin
              dsimp only at hfin
              dsimp only at hfr
              rw [hfin] at hfr
              split at hfr
              · -- content not iterable: only the close marker was yielded
                split at hfr
                · rcases List.mem_cons.mp hfr with h2 | h2
                  · subst h2; rfl
                  · simp at h2
                · next hif => exact absurd rfl hif
              · -- content items rendered in final mode
                split at hfr
                · rcases List.mem_append.mp hfr with h2 | h2
                  · rcases List.mem_cons.mp h2 with h3 | h3
                    · subst h3; rfl
                    · simp at h3
                  · exact renderAssistantItems_final_kinds _ fr h2
                · next hif => exact absurd rfl hif
          · simp at hfr
      · split at hfr
        · -- user branch
          rw [dispatchUser] at hfr
          split at hfr
          · split at hfr
            · simp at hfr
            · exact renderUserItems_kinds _ fr hfr
          · simp at hfr
        · split at hfr
          · -- result branch
            simp at hfr
          · split at hfr
            · -- error branch
              rw [dispatchError] at hfr
              split at hfr <;>
              · rcases List.mem_cons.mp hfr with h2 | h2
                · subst h2; rfl
                · rcases List.mem_cons.mp h2 with h3 | h3
                  · subst h3; rfl
                  · simp at h3
            · -- unrecognized branch
              rw [dispatchUnknown] at hfr
              split at hfr <;>
              · rcases List.mem_cons.mp hfr with h2 | h2
                · subst h2; rfl
                · simp at h2
  | null => simp [dispatch] at hfr
  | bool b => simp [dispatch] at hfr
  | num n => simp [dispatch] at hfr
  | str s => simp [dispatch] at hfr
  | arr xs => simp [dispatch] at hfr

/-- As `dispatch_no_thinking`, including the exception-warning fragment. -/
theorem eventFrags_no_thinking (j : Json) (h : emitsNoThinking j = true) :
    ∀ fr ∈ eventFrags j, isThinkingKind fr.1 = false := by
  intro fr hfr
  rw [eventFrags] at hfr
  split at hfr
  · next heq =>
      exact dispatch_no_thinking j h fr (by rw [heq]; exact hfr)
  · next e heq =>
      rcases List.mem_append.mp hfr with h2 | h2
      · exact dispatch_no_thinking j h fr (by rw [heq]; exact h2)
      · rcases List.mem_cons.mp h2 with h3 | h3
        · subst h3; rfl
        · simp at h3

theorem dispatchAll_no_thinking (evs : List Json)
    (h : ∀ e ∈ evs, emitsNoThinking e = true) :
    ∀ fr ∈ dispatchAll evs, isThinkingKind fr.1 = false := by
  induction evs with
  | nil => intro fr hfr; simp [dispatchAll] at hfr
  | cons e rest ih =>
    intro fr hfr
    rw [dispatchAll] at hfr
    rcases List.mem_append.mp hfr with h2 | h2
    · exact eventFrags_no_thinking e (h e (List.mem_cons_self e rest)) fr h2
    · exact ih (fun x hx => h x (List.mem_cons_of_mem e hx)) fr h2

/-- C8 (corrected): the renderer keeps no mode state, so "never returns
to thinking" does not hold unconditionally (see the counterexample); what
holds is: after an `end_turn` assistant event is dispatched, no
thinking-region fragment (opener or thinking-glyph) is emitted as long as
no later event is an `init` event with a session id or an assistant event
without `stop_reason == "end_turn"` — the whole remaining output,
including the `end_turn` event's own fragments, is free of thinking
content. -/
theorem C8_no_thinking_after_end_turn (items evs : List Json)
    (h : ∀ e ∈ evs, emitsNoThinking e = true) :
    ∀ fr ∈ dispatchAll (assistantEv (Json.str "end_turn") items :: evs),
      isThinkingKind fr.1 = false := by
  intro fr hfr
  rw [dispatchAll] at hfr
  rcases List.mem_append.mp hfr with h2 | h2
  · exact eventFrags_no_thinking _ (by rfl) fr h2
  · exact dispatchAll_no_thinking evs h fr h2

/-- C8 witness: the theorem applied to an `end_turn` turn followed by a
tool result. -/
theorem C8_witness :
    isThinkingKind (FragKind.toolOk, "\n✅ Tool Result: out\n").1 = false :=
  C8_no_thinking_after_end_turn [textItem "done"]
    [userEv [toolResultItem (Json.str "out") false]] (by decide)
    (FragKind.toolOk, "\n✅ Tool Result: out\n") (by decide)

/-- C8 counterexample: the claim as stated — no thinking fragment ever
follows an `end_turn` dispatch — is false: a later assistant event with a
null stop_reason emits a thinking-glyph fragment. -/
theorem C8_counterexample :
    dispatchAll [assistantEv (Json.str "end_turn") [textItem "done"],
        assistantEv Json.null [textItem "more"]] =
      [(FragKind.thinkClose, "\n</thinking>\n"), (FragKind.finalText, "\ndone"),
       (FragKind.thinking, "\n🤖< more")] ∧
    isThinkingKind FragKind.thinking = true := by
  exact ⟨by decide, by decide⟩

/-! ### C9 -/

theorem find?_append_of_none {α : Type} (p : α → Bool) (xs ys : List α)
    (h : ∀ x ∈ xs, p x = false) : (xs ++ ys).find? p = ys.find? p := by
  induction xs with
  | nil => rfl
  | cons a as ih =>
    have ha := h a (List.mem_cons_self a as)
    rw [List.cons_append, List.find?, ha]
    exact ih fun x hx => h x (List.mem_cons_of_mem a hx)

/-- C9 (corrected): the backward scan stops at the FIRST prior assistant
message whether or not it matches, so what the code guarantees is only:
when the most recent prior assistant message (no later prior message has
role `assistant`) is examined, the session id sent is whatever
`session_id=` match that one message yields — earlier assistant messages
are never consulted. -/
theorem C9_most_recent_assistant_only (l1 : List Msg) (a : Msg) (l2 : List Msg) (lastMsg : Msg)
    (h1 : a.role? = some "assistant")
    (h2 : ∀ m ∈ l2, m.role? ≠ some "assistant") :
    findSessionId (l1 ++ a :: l2 ++ [lastMsg]) = sessionMatch a.content := by
  unfold findSessionId
  have hd : (l1 ++ a :: l2 ++ [lastMsg]).dropLast = l1 ++ a :: l2 := by
    have hassoc : l1 ++ a :: l2 ++ [lastMsg] = (l1 ++ a :: l2) ++ [lastMsg] := by
      simp [List.append_assoc]
    rw [hassoc, List.dropLast_concat]
  rw [hd]
  have hr : (l1 ++ a :: l2).reverse = l2.reverse ++ (a :: l1.reverse) := by
    simp [List.reverse_append, List.reverse_cons, List.append_assoc]
  rw [hr]
  have hnone : ∀ m ∈ l2.reverse, (m.role? == some "assistant") = false := by
    intro m hm
    have hne := h2 m (List.mem_reverse.mp hm)
    simpa using hne
  rw [find?_append_of_none _ _ _ hnone]
  have hpa : (a.role? == some "assistant") = true := by simp [h1]
  rw [List.find?, hpa]

/-- C9 witness: the theorem applied to a history whose only prior
assistant message is the most recent one. -/
theorem C9_witness :
    findSessionId
      ([⟨some "user", "q1"⟩] ++ (⟨some "assistant", "yes session_id=abc-123"⟩ : Msg) ::
        [⟨some "user", "q2"⟩] ++ [⟨some "user", "q3"⟩]) =
      sessionMatch "yes session_id=abc-123" :=
  C9_most_recent_assistant_only [⟨some "user", "q1"⟩]
    ⟨some "assistant", "yes session_id=abc-123"⟩
    [⟨some "user", "q2"⟩] ⟨some "user", "q3"⟩ rfl (by decide)

/-- C9 counterexample: the claim as stated — the most recent
`session_id=` occurrence across ALL prior assistant messages is used — is
false: with an older assistant message carrying `session_id=abc-123` and
a newer assistant message without any occurrence, no session id at all is
found (the scan breaks at the newer message). -/
theorem C9_counterexample :
    findSessionId
      [⟨some "assistant", "session_id=abc-123"⟩,
       ⟨some "assistant", "Working on it."⟩,
       ⟨some "user", "hi"⟩] = none ∧
    (Msg.mk (some "assistant") "session_id=abc-123").role? = some "assistant" ∧
    sessionMatch "session_id=abc-123" = some "abc-123" := by
  refine ⟨by decide, rfl, by decide⟩

/-! ### C1 -/

/-- Rendering a list of non-dict items (as produced by iterating a string
or dict `content`) yields no fragment: the first item raises. -/
theorem renderAssistantItems_map_str (α : Type) (isf : Bool) (l : List α) (f : α → Json)
    (hf : ∀ x, ∃ s, f x = Json.str s) :
    (renderAssistantItems isf (l.map f)).1 = [] := by
  cases l with
  | nil => rfl
  | cons c cs =>
    obtain ⟨s, hs⟩ := hf c
    rw [List.map_cons, hs]
    rfl

theorem renderUserItems_map_str (α : Type) (l : List α) (f : α → Json)
    (hf : ∀ x, ∃ s, f x = Json.str s) :
    (renderUserItems (l.map f)).1 = [] := by
  cases l with
  | nil => rfl
  | cons c cs =>
    obtain ⟨s, hs⟩ := hf c
    rw [List.map_cons, hs]
    rfl

/-- Every fragment of the assistant content loop obeys its kind's shape
when the `text` fields in play are strings. -/
theorem renderAssistantItems_ok (isf : Bool) :
    ∀ items : List Json, items.all itemStrTyped = true →
      ∀ fr ∈ (renderAssistantItems isf items).1, fragOk fr := by
  intro items
  induction items with
  | nil => intro _ fr h; simp [renderAssistantItems] at h
  | cons item rest ih =>
    intro hall fr h
    rw [List.all_cons, Bool.and_eq_true] at hall
    obtain ⟨hitem, hrest⟩ := hall
    cases item with
    | obj ifs =>
      simp only [renderAssistantItems, consFrag] at h
      split at h
      · -- text item
        next htext =>
          have htf : ∃ t : String, jGetD ifs "text" (Json.str "") = Json.str t := by
            simp only [itemStrTyped, Bool.and_eq_true] at hitem
            obtain ⟨h1, _⟩ := hitem
            rw [htext, Bool.not_true, Bool.false_or] at h1
            rcases hlf : lookupField ifs "text" with _ | v
            · exact ⟨"", by simp [jGetD, hlf]⟩
            · rw [hlf] at h1
              cases v with
              | str t => exact ⟨t, by simp [jGetD, hlf]⟩
              | null => simp at h1
              | bool b => simp at h1
              | num n => simp at h1
              | arr xs => simp at h1
              | obj fs => simp at h1
          obtain ⟨t, ht⟩ := htf
          rw [ht] at h
          split at h
          · -- final mode: verbatim, unbounded by design
            rcases List.mem_cons.mp h with h2 | h2
            · subst h2; exact ⟨pyStr (Json.str t), rfl⟩
            · exact ih hrest fr h2
          · -- thinking mode
            split at h
            · next heq => simp [pyLen] at heq
            · next n heq =>
                simp only [pyLen, Option.some.injEq] at heq
                split at h
                · -- long text, truncated
                  split at h
                  · next heq2 => simp [pySliceTrunc] at heq2
                  · next tr heq2 =>
                      simp only [pySliceTrunc, Option.some.injEq] at heq2
                      subst heq2
                      rcases List.mem_cons.mp h with h2 | h2
                      · subst h2
                        exact ⟨take500 t ++ "...(truncated)", rfl, trunc_length_le t⟩
                      · exact ih hrest fr h2
                · -- short text, verbatim but within the bound
                  next hn =>
                    rcases List.mem_cons.mp h with h2 | h2
                    · subst h2
                      refine ⟨t, rfl, ?_⟩
                      have h514 : truncBound = 514 := rfl
                      have hlen : (t.length : Nat) = n := heq
                      omega
                    · exact ih hrest fr h2
      · split at h
        · -- tool_use item
          split at h
          · -- long input, truncated
            rcases List.mem_cons.mp h with h2 | h2
            · subst h2
              exact ⟨pyStr (jGetD ifs "name" (Json.str "Unknown")),
                take500 (pyStr (jGetD ifs "input" (Json.obj []))) ++ "...(truncated)",
                rfl, trunc_length_le _⟩
            · exact ih hrest fr h2
          · next hn =>
              rcases List.mem_cons.mp h with h2 | h2
              · subst h2
                refine ⟨pyStr (jGetD ifs "name" (Json.str "Unknown")),
                  pyStr (jGetD ifs "input" (Json.obj [])), rfl, ?_⟩
                have h514 : truncBound = 514 := rfl
                omega
              · exact ih hrest fr h2
        · exact ih hrest fr h
    | null => simp [renderAssistantItems] at h
    | bool b => simp [renderAssistantItems] at h
    | num n => simp [renderAssistantItems] at h
    | str s => simp [renderAssistantItems] at h
    | arr xs => simp [renderAssistantItems] at h

/-- Every fragment of the tool-result loop obeys its kind's shape when
the `content` fields in play are strings; note the `is_error` fragment is
verbatim and unbounded. -/
theorem renderUserItems_ok :
    ∀ items : List Json, items.all itemStrTyped = true →
      ∀ fr ∈ (renderUserItems items).1, fragOk fr := by
  intro items
  induction items with
  | nil => intro _ fr h; simp [renderUserItems] at h
  | cons item rest ih =>
    intro hall fr h
    rw [List.all_cons, Bool.and_eq_true] at hall
    obtain ⟨hitem, hrest⟩ := hall
    cases item with
    | obj ifs =>
      simp only [renderUserItems, consFrag] at h
      split at h
      · next hres =>
          have hcf : ∃ t : String, jGetD ifs "content" (Json.str "") = Json.str t := by
            simp only [itemStrTyped, Bool.and_eq_true] at hitem
            obtain ⟨_, h1⟩ := hitem
            rw [hres, Bool.not_true, Bool.false_or] at h1
            rcases hlf : lookupField ifs "content" with _ | v
            · exact ⟨"", by simp [jGetD, hlf]⟩
            · rw [hlf] at h1
              cases v with
              | str t => exact ⟨t, by simp [jGetD, hlf]⟩
              | null => simp at h1
              | bool b => simp at h1
              | num n => simp at h1
              | arr xs => simp at h1
              | obj fs => simp at h1
          obtain ⟨t, ht⟩ := hcf
          rw [ht] at h
          split at h
          · -- is_error: verbatim, unbounded by design
            rcases List.mem_cons.mp h with h2 | h2
            · subst h2; exact ⟨pyStr (Json.str t), rfl⟩
            · exact ih hrest fr h2
          · split at h
            · next heq => simp [pyLen] at heq
            · next n heq =>
                simp only [pyLen, Option.some.injEq] at heq
                split at h
                · split at h
                  · next heq2 => simp [pySliceTrunc] at heq2
                  · next tr heq2 =>
                      simp only [pySliceTrunc, Option.some.injEq] at heq2
                      subst heq2
                      rcases List.mem_cons.mp h with h2 | h2
                      · subst h2
                        exact ⟨take500 t ++ "...(truncated)", rfl, trunc_length_le t⟩
                      · exact ih hrest fr h2
                · next hn =>
                    rcases List.mem_cons.mp h with h2 | h2
                    · subst h2
                      refine ⟨t, rfl, ?_⟩
                      have h514 : truncBound = 514 := rfl
                      have hlen : (t.length : Nat) = n := heq
                      omega
                    · exact ih hrest fr h2
      · exact ih hrest fr h
    | null => simp [renderUserItems] at h
    | bool b => simp [renderUserItems] at h
    | num n => simp [renderUserItems] at h
    | str s => simp [renderUserItems] at h
    | arr xs => simp [renderUserItems] at h

/-- Every fragment `dispatch` yields for a string-typed event obeys its
kind's shape. -/
theorem dispatch_ok (j : Json) (h : strTyped j = true) :
    ∀ fr ∈ (dispatch j).1, fragOk fr := by
  intro fr hfr
  cases j with
  | obj fields =>
    rw [dispatch] at hfr
    dsimp only at hfr
    split at hfr
    · -- init branch: fixed fragments
      split at hfr
      · rcases List.mem_cons.mp hfr with h2 | h2
        · subst h2; trivial
        · rcases List.mem_cons.mp h2 with h3 | h3
          · subst h3; trivial
          · simp at h3
      · simp at hfr
    · split at hfr
      · -- assistant branch
        next hA =>
          simp only [strTyped] at h
          split at h
          · rw [dispatchAssistant] at hfr
            split at hfr
            · next msgF heqmsg =>
                rw [heqmsg] at h
                dsimp only at h
                dsimp only at hfr
                split at hfr
                · -- content not iterable: close marker at most
                  split at hfr
                  · rcases List.mem_cons.mp hfr with h2 | h2
                    · subst h2; trivial
                    · simp at h2
                  · simp at hfr
                · -- content iterated
                  next items hiter =>
                    rcases List.mem_append.mp hfr with h2 | h2
                    · split at h2
                      · rcases List.mem_cons.mp h2 with h3 | h3
                        · subst h3; trivial
                        · simp at h3
                      · simp at h2
                    · rcases hc : jGetD msgF "content" (Json.arr []) with _ | b | n | s | xs | fs
                      · rw [hc] at hiter; simp [pyIter] at hiter
                      · rw [hc] at hiter; simp [pyIter] at hiter
                      · rw [hc] at hiter; simp [pyIter] at hiter
                      · rw [hc] at hiter
                        simp only [pyIter, Except.ok.injEq] at hiter
                        subst hiter
                        rw [renderAssistantItems_map_str Char _ s.data
                          (fun c => Json.str (String.mk [c]))
                          (fun c => ⟨String.mk [c], rfl⟩)] at h2
                        simp at h2
                      · rw [hc] at h hiter
                        dsimp only at h
                        simp only [pyIter, Except.ok.injEq] at hiter
                        subst hiter
                        exact renderAssistantItems_ok _ xs h fr h2
                      · rw [hc] at hiter
                        simp only [pyIter, Except.ok.injEq] at hiter
                        subst hiter
                        rw [renderAssistantItems_map_str (String × Json) _ fs
                          (fun kv => Json.str kv.1)
                          (fun kv => ⟨kv.1, rfl⟩)] at h2
                        simp at h2
            · simp at hfr
          · next hcond =>
              exact absurd (by rw [hA]; simp) hcond
      · split at hfr
        · -- user branch
          next hU =>
            simp only [strTyped] at h
            split at h
            · rw [dispatchUser] at hfr
              split at hfr
              · next msgF heqmsg =>
                  rw [heqmsg] at h
                  dsimp only at h
                  split at hfr
                  · simp at hfr
                  · next items hiter =>
                      rcases hc : jGetD msgF "content" (Json.arr []) with _ | b | n | s | xs | fs
                      · rw [hc] at hiter; simp [pyIter] at hiter
                      · rw [hc] at hiter; simp [pyIter] at hiter
                      · rw [hc] at hiter; simp [pyIter] at hiter
                      · rw [hc] at hiter
                        simp only [pyIter, Except.ok.injEq] at hiter
                        subst hiter
                        rw [renderUserItems_map_str Char s.data
                          (fun c => Json.str (String.mk [c]))
                          (fun c => ⟨String.mk [c], rfl⟩)] at hfr
                        simp at hfr
                      · rw [hc] at h hiter
                        dsimp only at h
                        simp only [pyIter, Except.ok.injEq] at hiter
                        subst hiter
                        exact renderUserItems_ok xs h fr hfr
                      · rw [hc] at hiter
                        simp only [pyIter, Except.ok.injEq] at hiter
                        subst hiter
                        rw [renderUserItems_map_str (String × Json) fs
                          (fun kv => Json.str kv.1)
                          (fun kv => ⟨kv.1, rfl⟩)] at hfr
                        simp at hfr
              · simp at hfr
            · next hcond =>
                exact absurd (by rw [hU]; simp) hcond
        · split at hfr
          · -- result branch
            simp at hfr
          · split at hfr
            · -- error branch
              rw [dispatchError] at hfr
              split at hfr
              · rcases List.mem_cons.mp hfr with h2 | h2
                · subst h2; trivial
                · rcases List.mem_cons.mp h2 with h3 | h3
                  · subst h3
                    exact ⟨take500 (pyStr (jGetD fields "error" (Json.str "Unknown error")))
                      ++ "...(truncated)", rfl, trunc_length_le _⟩
                  · simp at h3
              · next hn =>
                  rcases List.mem_cons.mp hfr with h2 | h2
                  · subst h2; trivial
                  · rcases List.mem_cons.mp h2 with h3 | h3
                    · subst h3
                      refine ⟨pyStr (jGetD fields "error" (Json.str "Unknown error")), rfl, ?_⟩
                      have h514 : truncBound = 514 := rfl
                      omega
                    · simp at h3
            · -- unrecognized branch
              rw [dispatchUnknown] at hfr
              split at hfr
              · rcases List.mem_cons.mp hfr with h2 | h2
                · subst h2
                  exact ⟨take500 (pyStr (Json.obj fields)) ++ "...(truncated)",
                    rfl, trunc_length_le _⟩
                · simp at h2
              · next hn =>
                  rcases List.mem_cons.mp hfr with h2 | h2
                  · subst h2
                    refine ⟨pyStr (Json.obj fields), rfl, ?_⟩
                    have h514 : truncBound = 514 := rfl
                    omega
                  · simp at h2
  | null => simp [dispatch] at hfr
  | bool b => simp [dispatch] at hfr
  | num n => simp [dispatch] at hfr
  | str s => simp [dispatch] at hfr
  | arr xs => simp [dispatch] at hfr

/-- As `dispatch_ok`, including the exception-warning fragment (whose
kind the claim does not constrain). -/
theorem eventFrags_ok (j : Json) (h : strTyped j = true) :
    ∀ fr ∈ eventFrags j, fragOk fr := by
  intro fr hfr
  rw [eventFrags] at hfr
  split at hfr
  · next heq =>
      exact dispatch_ok j h fr (by rw [heq]; exact hfr)
  · next e heq =>
      rcases List.mem_append.mp hfr with h2 | h2
      · exact dispatch_ok j h fr (by rw [heq]; exact h2)
      · rcases List.mem_cons.mp h2 with h3 | h3
        · subst h3; trivial
        · simp at h3

/-- C1 (corrected): for string-typed events, the six truncating emission
sites — thinking text, tool-use input, `is_error=false` tool results,
error payloads, unrecognized events — and stray non-JSON lines each embed
a content part of at most 500 characters plus the `...(truncated)`
marker; but, contrary to the claim, final (`end_turn`) assistant text and
`is_error=true` tool-result content are emitted verbatim with NO
truncation (see `fragOk`: those two kinds carry no bound). -/
theorem C1_truncation_by_kind :
    (∀ j : Json, strTyped j = true → ∀ fr ∈ eventFrags j, fragOk fr) ∧
    (∀ line : String, fragOk (FragKind.stray, strayFragText line)) := by
  refine ⟨eventFrags_ok, ?_⟩
  intro line
  rw [strayFragText]
  split
  · exact ⟨take500 line ++ "...(truncated)", rfl, trunc_length_le line⟩
  · next hn =>
      refine ⟨line, rfl, ?_⟩
      have h514 : truncBound = 514 := rfl
      omega

/-- C1 witness: the theorem applied to a short thinking text. -/
theorem C1_witness : fragOk (FragKind.thinking, "\n🤖< " ++ "hello") :=
  C1_truncation_by_kind.1 (assistantEv Json.null [textItem "hello"]) (by decide)
    (FragKind.thinking, "\n🤖< " ++ "hello") (by decide)

/-- C1 counterexample: the claim as stated — truncation applies to final
(`end_turn`) assistant text too — is false: a 600-character final text is
emitted whole, in one fragment of length 601 > 500 + 14, with no
truncation marker. -/
theorem C1_counterexample :
    eventFrags (assistantEv (Json.str "end_turn") [textItem longText]) =
      [(FragKind.thinkClose, "\n</thinking>\n"), (FragKind.finalText, "\n" ++ longText)] ∧
    ("\n" ++ longText).length = 601 ∧
    500 + "...(truncated)".length < 601 ∧
    containsStr ("\n" ++ longText) "...(truncated)" = false := by
  refine ⟨by decide, by decide, by decide, by decide⟩

end ClaudeCode
